import Mathlib

/-
Verification of the twitterSearch program (src/twitterSearch.js).

The JavaScript source is shallowly embedded as Lean functions:

* Text normalization (lines 131-142 of the source): the selected raw text is
  first trimmed (JavaScript String.trim), then every occurrence of the regex
  pattern matching a CRLF pair, a lone CR, a lone LF, an at-sign or a hash
  sign is replaced by a single space.  Strings are modelled as lists of
  characters.

* The pagination loop of the function named search (lines 120-160): the
  network is modelled by an oracle from the page cursor to a page result,
  the loop by a fuel-indexed recursion that records the trace of fetch
  calls, and the try/finally block by emitting a single write event carrying
  the accumulator after the loop ends, on both the normal and the error
  path.  Fuel exhaustion (an infinite cursor chain) is modelled as the
  absence of a result.

* The request body construction of getTweetBatch (lines 36-43) and its
  HTTP error path (lines 53-67).

* The result store (line 158 and lines 197-200) at the level of parsed
  JSON values: the byte-level JSON codec is the out-of-scope storage
  collaborator, so the file is modelled as the JSON value that
  JSON.stringify serializes and JSON.parse recovers.
-/

namespace TwitterSearch

/-- Whitespace predicate of JavaScript String.trim: space, the control
whitespace characters, and the Unicode space separators recognised by the
ECMAScript TrimString operation. -/
def isWS (c : Char) : Bool :=
  c == ' ' || c == '\t' || c == '\n' || c == '\r' ||
  c.toNat == 11 || c.toNat == 12 || c.toNat == 160 || c.toNat == 0x1680 ||
  (Nat.ble 0x2000 c.toNat && Nat.ble c.toNat 0x200A) ||
  c.toNat == 0x2028 || c.toNat == 0x2029 || c.toNat == 0x202F ||
  c.toNat == 0x205F || c.toNat == 0x3000 || c.toNat == 0xFEFF

/-- JavaScript String.trim: drop whitespace from both ends. -/
def jsTrim (l : List Char) : List Char :=
  ((l.dropWhile isWS).reverse.dropWhile isWS).reverse

/-- Global replacement of the source regex (CRLF pair, lone CR, lone LF,
at-sign, or hash sign) by a single space, as in line 140 of the source.
A CRLF pair is one match of the regex, hence becomes one space. -/
def replaceChars : List Char → List Char
  | [] => []
  | c :: rest =>
    if c = '\r' then
      match rest with
      | [] => [' ']
      | d :: rest2 =>
        if d = '\n' then ' ' :: replaceChars rest2
        else ' ' :: replaceChars (d :: rest2)
    else if c = '\n' then ' ' :: replaceChars rest
    else if c = '@' then ' ' :: replaceChars rest
    else if c = '#' then ' ' :: replaceChars rest
    else c :: replaceChars rest

/-- The characters the replacement of line 140 removes. -/
def isForb (c : Char) : Bool :=
  c == '\r' || c == '\n' || c == '@' || c == '#'

/-- Pointwise form of the replacement, valid on CR-free text. -/
def substChar (c : Char) : Char :=
  if isForb c then ' ' else c

/-- The complete text transformation of lines 134-140: trim first, then
replace. -/
def normText (l : List Char) : List Char :=
  replaceChars (jsTrim l)

/-- One element of the results array of a search response.  The two text
fields are optional because the source reads exactly one of them and a
missing selected field makes the property access of lines 134 or 137
throw. -/
structure RawItem where
  truncated : Bool
  text : Option String
  extended : Option String
  created_at : String
deriving DecidableEq, Repr

/-- The normalized tweet pushed on the accumulator in lines 132-142. -/
structure Tweet where
  text : List Char
  created_at : String
deriving DecidableEq, Repr

/-- Errors the run can raise. -/
inductive Err where
  | transport
  | httpStatus (status : Nat)
  | authStatus (status : Nat)
  | typeError
deriving DecidableEq, Repr

/-- The field selection of line 133: the truncation flag alone decides
which text field is read. -/
def selectText (it : RawItem) : Option String :=
  if it.truncated then it.extended else it.text

/-- Normalization of one raw item (lines 132-141).  A missing selected
field is the TypeError the property access would throw. -/
def normalizeItem (it : RawItem) : Except Err Tweet :=
  match selectText it with
  | none => Except.error Err.typeError
  | some s => Except.ok ⟨normText s.toList, it.created_at⟩

/-- A parsed search response: the results array and the optional next
cursor. -/
structure Page where
  results : List RawItem
  next : Option String
deriving DecidableEq, Repr

/-- JavaScript truthiness of the cursor value: undefined and the empty
string are falsy, every other string is truthy. -/
def truthy : Option String → Bool
  | none => false
  | some s => s ≠ ""

/-- The for loop of lines 131-143: normalize the items in order, append
each to the accumulator, stop at the first raised error with the
accumulator as pushed so far. -/
def processResults : List RawItem → List Tweet → List Tweet × Option Err
  | [], acc => (acc, none)
  | it :: rest, acc =>
    match normalizeItem it with
    | Except.error e => (acc, some e)
    | Except.ok t => processResults rest (acc ++ [t])

/-- Outcome of the do/while loop: the cursors passed to getTweetBatch in
call order, the final accumulator, and the error that ended the loop, if
any. -/
structure LoopOut where
  calls : List (Option String)
  acc : List Tweet
  err : Option Err
deriving DecidableEq, Repr

/-- The do/while loop of lines 129-147, over a fetch oracle mapping the
cursor to the page result.  Fuel bounds the number of iterations; none
models an infinite cursor chain.  The rate limiter of line 145 only
spends time and is not observable here. -/
def searchLoop (fetch : Option String → Except Err Page) :
    Nat → Option String → List Tweet → Option LoopOut
  | 0, _, _ => none
  | Nat.succ fuel, cursor, acc =>
    match fetch cursor with
    | Except.error e => some ⟨[cursor], acc, some e⟩
    | Except.ok page =>
      match processResults page.results acc with
      | (acc2, some e) => some ⟨[cursor], acc2, some e⟩
      | (acc2, none) =>
        if truthy page.next then
          match searchLoop fetch fuel page.next acc2 with
          | none => none
          | some out => some ⟨cursor :: out.calls, out.acc, out.err⟩
        else
          some ⟨[cursor], acc2, none⟩

/-- Observable events of one run: a fetch call with the cursor it passes,
and the write of the result file. -/
inductive Ev where
  | fetchCall (cursor : Option String)
  | write (file : List Tweet)
deriving DecidableEq, Repr

/-- The function named search, lines 120-160.  The token oracle stands for
getTwitterToken, the fetch oracle for getTweetBatch.  The try/finally
block writes the current accumulator as the last action on every exit
path: after the loop ends normally, after an error in the loop, and after
a token failure (the accumulator still empty).  On success the call
returns the accumulator length (line 149). -/
def search (tok : Except Err String) (fetch : Option String → Except Err Page)
    (fuel : Nat) : Option (List Ev × Except Err Nat) :=
  match tok with
  | Except.error e => some ([Ev.write []], Except.error e)
  | Except.ok _ =>
    match searchLoop fetch fuel none [] with
    | none => none
    | some out =>
      let evs := out.calls.map Ev.fetchCall ++ [Ev.write out.acc]
      match out.err with
      | some e => some (evs, Except.error e)
      | none => some (evs, Except.ok out.acc.length)

/-- The write events of a trace, with their payloads. -/
def writesOf (evs : List Ev) : List (List Tweet) :=
  evs.filterMap fun e =>
    match e with
    | Ev.write f => some f
    | _ => none

/-- Oracle of the page-2 failure scenario: the first call (no cursor)
returns the given items and a next cursor, every later call fails. -/
def failAfterFirst (items : List RawItem) (cur : String) (e : Err) :
    Option String → Except Err Page
  | none => Except.ok ⟨items, some cur⟩
  | some _ => Except.error e

/-- The request body built in lines 36-43 of getTweetBatch: the next field
is set only when the supplied cursor is truthy; none means the field is
absent from the body. -/
structure SearchBody where
  query : String
  fromDate : String
  maxResults : Nat
  next : Option String
deriving DecidableEq, Repr

/-- Body construction of lines 36-43. -/
def mkSearchBody (query fromDate : String) (maxResults : Nat)
    (next : Option String) : SearchBody :=
  ⟨query, fromDate, maxResults, if truthy next then next else none⟩

/-- An HTTP response from the search endpoint: its status code and the
parsed JSON body. -/
structure HttpResponse where
  status : Nat
  body : Page
deriving DecidableEq, Repr

/-- A JavaScript Error value: what it carries is its message. -/
structure JsError where
  message : String
deriving DecidableEq, Repr

/-- JavaScript Response.ok: status in the 2xx range. -/
def responseOk (status : Nat) : Bool :=
  Nat.ble 200 status && Nat.blt status 300

/-- The message of the Error thrown in lines 58-59 on a non-2xx search
response. -/
def gtbErrMessage (status : Nat) : String :=
  ("authorization request response status: ") ++ toString status

/-- The line logged by the catch block in lines 62-66 before the error is
rethrown (the leading timestamp is not modelled).  JavaScript string
interpolation of an Error value prepends the text Error and a colon to
its message. -/
def gtbLogLine (query : String) (e : JsError) : String :=
  ("getTweetBatch - query:") ++ query ++ (" - Error: ") ++ e.message

/-- The HTTP result handling of getTweetBatch, lines 45-67: a 2xx
response yields the parsed body; any other status throws an Error whose
message carries the status, and the catch block logs a line naming the
query before rethrowing the same error.  The result pairs the outcome
with the log lines emitted. -/
def getTweetBatch (query : String) (resp : HttpResponse) :
    Except JsError Page × List String :=
  if responseOk resp.status then (Except.ok resp.body, [])
  else
    let e : JsError := ⟨gtbErrMessage resp.status⟩
    (Except.error e, [gtbLogLine query e])

/-- The message of the error a getTweetBatch call propagates, if it
fails. -/
def errMsgOf : Except JsError Page → Option String
  | Except.error e => some e.message
  | Except.ok _ => none

/-- Parsed JSON values: the file of line 158 is modelled as the value
JSON.stringify serializes, the byte-level codec being the out-of-scope
storage collaborator. -/
inductive JValue where
  | jnull
  | jbool (b : Bool)
  | jnum (n : Int)
  | jstr (s : String)
  | jarr (items : List JValue)
  | jobj (fields : List (String × JValue))

/-- The JSON object serialized for one accumulated tweet (line 158):
field text, then field created_at, in insertion order. -/
def stringifyTweet (t : Tweet) : JValue :=
  JValue.jobj [(("text"), JValue.jstr t.text.asString),
               (("created_at"), JValue.jstr t.created_at)]

/-- The JSON array serialized for the whole accumulator, line 158. -/
def stringifyTweets (ts : List Tweet) : JValue :=
  JValue.jarr (ts.map stringifyTweet)

/-- Reading one entry of the parsed file back as a tweet. -/
def parseTweet : JValue → Option Tweet
  | JValue.jobj fields =>
    match fields.lookup ("text"), fields.lookup ("created_at") with
    | some (JValue.jstr a), some (JValue.jstr b) => some ⟨a.toList, b⟩
    | _, _ => none
  | _ => none

/-- Reading a list of parsed entries back as tweets. -/
def parseTweets : List JValue → Option (List Tweet)
  | [] => some []
  | v :: rest =>
    match parseTweet v, parseTweets rest with
    | some t, some ts => some (t :: ts)
    | _, _ => none

/-- readTweetFile, lines 197-200: JSON.parse recovers the stored value;
the stored value of this program is an array of tweet objects, read back
in order. -/
def readTweetFile (file : JValue) : Option (List Tweet) :=
  match file with
  | JValue.jarr items => parseTweets items
  | _ => none

/-! ### Lemmas about the text transformation -/

theorem replaceChars_nil : replaceChars [] = [] := rfl

theorem replaceChars_cr_nil : replaceChars ['\r'] = [' '] := by
  rw [replaceChars.eq_def]; simp

theorem replaceChars_crlf (rest : List Char) :
    replaceChars ('\r' :: '\n' :: rest) = ' ' :: replaceChars rest := by
  rw [replaceChars.eq_def]; simp

theorem replaceChars_cr (d : Char) (rest : List Char) (hd : d ≠ '\n') :
    replaceChars ('\r' :: d :: rest) = ' ' :: replaceChars (d :: rest) := by
  rw [replaceChars.eq_def]; simp [hd]

theorem replaceChars_lf (rest : List Char) :
    replaceChars ('\n' :: rest) = ' ' :: replaceChars rest := by
  rw [replaceChars.eq_def]; simp

theorem replaceChars_at (rest : List Char) :
    replaceChars ('@' :: rest) = ' ' :: replaceChars rest := by
  rw [replaceChars.eq_def]; simp

theorem replaceChars_hash (rest : List Char) :
    replaceChars ('#' :: rest) = ' ' :: replaceChars rest := by
  rw [replaceChars.eq_def]; simp

theorem replaceChars_other (c : Char) (rest : List Char) (h1 : c ≠ '\r')
    (h2 : c ≠ '\n') (h3 : c ≠ '@') (h4 : c ≠ '#') :
    replaceChars (c :: rest) = c :: replaceChars rest := by
  rw [replaceChars.eq_def]; simp [h1, h2, h3, h4]

theorem mem_replaceChars_not_forb :
    ∀ l : List Char, ∀ c ∈ replaceChars l, isForb c = false := by
  intro l
  induction l using replaceChars.induct with
  | case1 => intro c hc; simp [replaceChars_nil] at hc
  | case2 =>
    intro c hc
    simp [replaceChars_cr_nil] at hc
    simp [hc, isForb]
  | case3 rest2 ih =>
    intro x hx
    rw [replaceChars_crlf] at hx
    rcases List.mem_cons.mp hx with rfl | hx
    · simp [isForb]
    · exact ih x hx
  | case4 d rest2 hd ih =>
    intro x hx
    rw [replaceChars_cr d rest2 hd] at hx
    rcases List.mem_cons.mp hx with rfl | hx
    · simp [isForb]
    · exact ih x hx
  | case5 rest2 h ih =>
    intro x hx
    rw [replaceChars_lf] at hx
    rcases List.mem_cons.mp hx with rfl | hx
    · simp [isForb]
    · exact ih x hx
  | case6 rest2 h h2 ih =>
    intro x hx
    rw [replaceChars_at] at hx
    rcases List.mem_cons.mp hx with rfl | hx
    · simp [isForb]
    · exact ih x hx
  | case7 rest2 h h2 h3 ih =>
    intro x hx
    rw [replaceChars_hash] at hx
    rcases List.mem_cons.mp hx with rfl | hx
    · simp [isForb]
    · exact ih x hx
  | case8 d rest2 h h2 h3 h4 ih =>
    intro x hx
    rw [replaceChars_other d rest2 h h2 h3 h4] at hx
    rcases List.mem_cons.mp hx with rfl | hx
    · simp [isForb, h, h2, h3, h4]
    · exact ih x hx

theorem replaceChars_id :
    ∀ l : List Char, (∀ c ∈ l, isForb c = false) → replaceChars l = l := by
  intro l
  induction l with
  | nil => intro _; rfl
  | cons c rest ih =>
    intro h
    have hc := h c (by simp)
    simp only [isForb, Bool.or_eq_false_iff, beq_eq_false_iff_ne, ne_eq] at hc
    rw [replaceChars_other c rest hc.1.1.1 hc.1.1.2 hc.1.2 hc.2]
    rw [ih fun x hx => h x (List.mem_cons_of_mem c hx)]

theorem mem_jsTrim : ∀ (l : List Char) (c : Char), c ∈ jsTrim l → c ∈ l := by
  intro l c hc
  simp only [jsTrim, List.mem_reverse] at hc
  have h1 := List.Sublist.mem hc (List.dropWhile_sublist isWS)
  rw [List.mem_reverse] at h1
  exact List.Sublist.mem h1 (List.dropWhile_sublist isWS)

theorem replaceChars_eq_map :
    ∀ l : List Char, '\r' ∉ l → replaceChars l = l.map substChar := by
  intro l
  induction l with
  | nil => intro _; rfl
  | cons c rest ih =>
    intro h
    have hc : c ≠ '\r' := fun hcr => h (hcr ▸ List.mem_cons_self c rest)
    have hrest : '\r' ∉ rest := fun hr => h (List.mem_cons_of_mem c hr)
    by_cases h2 : c = '\n'
    · subst h2
      rw [replaceChars_lf, ih hrest]
      simp [substChar, isForb]
    · by_cases h3 : c = '@'
      · subst h3
        rw [replaceChars_at, ih hrest]
        simp [substChar, isForb]
      · by_cases h4 : c = '#'
        · subst h4
          rw [replaceChars_hash, ih hrest]
          simp [substChar, isForb]
        · rw [replaceChars_other c rest hc h2 h3 h4, ih hrest]
          simp [substChar, isForb, hc, h2, h3, h4]

/-- C6 (amended): applying the normalization transformation a second time
to already-normalized text is not a no-op in general; it equals trimming
the normalized text, because the replacement leaves no character it would
replace, so only the trim of the second pass can act.  It is a no-op
exactly on runs whose normalized text carries no leading or trailing
whitespace. -/
theorem normText_second_pass_trims (l : List Char) :
    normText (normText l) = jsTrim (normText l) := by
  show replaceChars (jsTrim (normText l)) = jsTrim (normText l)
  exact replaceChars_id (jsTrim (normText l)) fun c hc =>
    mem_replaceChars_not_forb (jsTrim l) c (mem_jsTrim (normText l) c hc)

/-! ### Lemmas about the pagination loop -/

theorem searchLoop_zero (fetch : Option String → Except Err Page)
    (cursor : Option String) (acc : List Tweet) :
    searchLoop fetch 0 cursor acc = none := rfl

theorem searchLoop_succ (fetch : Option String → Except Err Page) (fuel : Nat)
    (cursor : Option String) (acc : List Tweet) :
    searchLoop fetch (fuel + 1) cursor acc =
      match fetch cursor with
      | Except.error e => some ⟨[cursor], acc, some e⟩
      | Except.ok page =>
        match processResults page.results acc with
        | (acc2, some e) => some ⟨[cursor], acc2, some e⟩
        | (acc2, none) =>
          if truthy page.next then
            match searchLoop fetch fuel page.next acc2 with
            | none => none
            | some out => some ⟨cursor :: out.calls, out.acc, out.err⟩
          else
            some ⟨[cursor], acc2, none⟩ := rfl

/-- Whenever the loop body runs at all, its first fetch call passes
exactly the cursor the iteration was entered with. -/
theorem searchLoop_first_call (fetch : Option String → Except Err Page)
    (fuel : Nat) (cursor : Option String) (acc : List Tweet) (out : LoopOut)
    (h : searchLoop fetch (fuel + 1) cursor acc = some out) :
    ∃ rest, out.calls = cursor :: rest := by
  rw [searchLoop_succ] at h
  split at h
  · rw [Option.some.injEq] at h
    subst h
    exact ⟨[], rfl⟩
  · split at h
    · rw [Option.some.injEq] at h
      subst h
      exact ⟨[], rfl⟩
    · split at h
      · split at h
        · cases h
        · rw [Option.some.injEq] at h
          subst h
          exact ⟨_, rfl⟩
      · rw [Option.some.injEq] at h
        subst h
        exact ⟨[], rfl⟩

theorem writesOf_nil : writesOf [] = [] := rfl

theorem writesOf_calls_write (cs : List (Option String)) (a : List Tweet) :
    writesOf (cs.map Ev.fetchCall ++ [Ev.write a]) = [a] := by
  induction cs with
  | nil => rfl
  | cons c rest ih =>
    simp only [writesOf, List.map_cons, List.cons_append,
      List.filterMap_cons] at ih ⊢
    exact ih

/-- Every completed run of search has one of two shapes: the token
acquisition failed and the run wrote the empty accumulator, or the loop
ran and the trace is its fetch calls followed by the write of its final
accumulator, the outcome being the loop error or the accumulator
length. -/
theorem search_shape (tok : Except Err String)
    (fetch : Option String → Except Err Page) (fuel : Nat) (evs : List Ev)
    (out : Except Err Nat) (h : search tok fetch fuel = some (evs, out)) :
    (∃ e, tok = Except.error e ∧ evs = [Ev.write []] ∧
      out = Except.error e) ∨
    (∃ lout : LoopOut, searchLoop fetch fuel none [] = some lout ∧
      evs = lout.calls.map Ev.fetchCall ++ [Ev.write lout.acc] ∧
      ((∃ e, lout.err = some e ∧ out = Except.error e) ∨
        (lout.err = none ∧ out = Except.ok lout.acc.length))) := by
  cases tok with
  | error e =>
    left
    simp only [search] at h
    rw [Option.some.injEq, Prod.mk.injEq] at h
    exact ⟨e, rfl, h.1.symm, h.2.symm⟩
  | ok t =>
    right
    simp only [search] at h
    cases hl : searchLoop fetch fuel none [] with
    | none => rw [hl] at h; simp at h
    | some lout =>
      rw [hl] at h
      cases herr : lout.err with
      | some e =>
        simp only [herr, Option.some.injEq, Prod.mk.injEq] at h
        exact ⟨lout, rfl, h.1.symm, Or.inl ⟨e, herr, h.2.symm⟩⟩
      | none =>
        simp only [herr, Option.some.injEq, Prod.mk.injEq] at h
        exact ⟨lout, rfl, h.1.symm, Or.inr ⟨herr, h.2.symm⟩⟩

/-- Oracle returning the same page for every cursor. -/
def onePage (p : Page) : Option String → Except Err Page :=
  fun _ => Except.ok p

/-- Oracle returning one page for the first call (no cursor) and another
for every cursor-bearing call. -/
def twoPages (p1 p2 : Page) : Option String → Except Err Page
  | none => Except.ok p1
  | some _ => Except.ok p2

/-! ### The claims -/

/-- C1: for every completed run of search, whether the loop ends normally
or any error is raised (token acquisition, page fetch, or normalization),
the accumulator is written to the result file exactly once and as the
final action of the run; in particular, when page 1 succeeds and the
page-2 fetch fails, the run propagates that error and the page-1 items
are persisted. -/
theorem search_persists_accumulator_once :
    (∀ (tok : Except Err String) (fetch : Option String → Except Err Page)
      (fuel : Nat) (evs : List Ev) (out : Except Err Nat),
      search tok fetch fuel = some (evs, out) →
      ∃ f, writesOf evs = [f] ∧ evs.getLast? = some (Ev.write f)) ∧
    (∀ (items : List RawItem) (cur : String) (e : Err) (ts : List Tweet),
      truthy (some cur) = true →
      processResults items [] = (ts, none) →
      search (Except.ok ("tk")) (failAfterFirst items cur e) 2 =
        some ([Ev.fetchCall none, Ev.fetchCall (some cur), Ev.write ts],
          Except.error e)) := by
  constructor
  · intro tok fetch fuel evs out h
    rcases search_shape tok fetch fuel evs out h with
      ⟨e, _, hevs, _⟩ | ⟨lout, _, hevs, _⟩
    · subst hevs
      exact ⟨[], rfl, rfl⟩
    · subst hevs
      exact ⟨lout.acc, writesOf_calls_write lout.calls lout.acc,
        List.getLast?_concat _⟩
  · intro items cur e ts hcur hp
    show (match searchLoop (failAfterFirst items cur e) 2 none [] with
      | none => none
      | some out =>
        match out.err with
        | some e2 => some (out.calls.map Ev.fetchCall ++ [Ev.write out.acc],
            Except.error e2)
        | none => some (out.calls.map Ev.fetchCall ++ [Ev.write out.acc],
            Except.ok out.acc.length)) = _
    have h2 : searchLoop (failAfterFirst items cur e) 2 none [] =
        some ⟨[none, some cur], ts, some e⟩ := by
      rw [show (2 : Nat) = 1 + 1 from rfl, searchLoop_succ]
      have hf : failAfterFirst items cur e none =
          Except.ok ⟨items, some cur⟩ := rfl
      rw [hf]
      simp only [hp, hcur, if_true]
      rw [searchLoop_succ]
      rfl
    rw [h2]
    rfl

/-- C2: for every page whose payload carries no next cursor (absent or
falsy), once its items are processed the loop terminates with exactly
that page's fetch call as the last one: no further fetch call occurs. -/
theorem loop_stops_without_next_cursor
    (fetch : Option String → Except Err Page) (fuel : Nat)
    (cursor : Option String) (acc acc2 : List Tweet) (page : Page)
    (hf : fetch cursor = Except.ok page)
    (hn : truthy page.next = false)
    (hp : processResults page.results acc = (acc2, none)) :
    searchLoop fetch (fuel + 1) cursor acc = some ⟨[cursor], acc2, none⟩ := by
  rw [searchLoop_succ, hf]
  simp only [hp, hn]
  rfl

/-- C3: for every page whose payload carries a truthy next cursor, the
loop issues exactly one next fetch call right after processing it, and
the cursor passed to that call is the page's next value unchanged. -/
theorem loop_continues_with_next_cursor
    (fetch : Option String → Except Err Page) (fuel : Nat)
    (cursor : Option String) (acc acc2 : List Tweet) (page : Page)
    (s : String) (out : LoopOut)
    (hf : fetch cursor = Except.ok page)
    (hn : page.next = some s) (hs : truthy (some s) = true)
    (hp : processResults page.results acc = (acc2, none))
    (h : searchLoop fetch (fuel + 1 + 1) cursor acc = some out) :
    ∃ rest, out.calls = cursor :: some s :: rest := by
  rw [searchLoop_succ, hf] at h
  simp only [hp, hn, hs, if_true] at h
  cases hr : searchLoop fetch (fuel + 1) (some s) acc2 with
  | none => rw [hr] at h; cases h
  | some out2 =>
    rw [hr] at h
    simp only [Option.some.injEq] at h
    obtain ⟨rest, hrest⟩ :=
      searchLoop_first_call fetch fuel (some s) acc2 out2 hr
    subst h
    exact ⟨rest, by rw [hrest]⟩

/-- C4: when search completes without error, the returned count equals
the length of the tweet sequence persisted to the result file. -/
theorem search_returns_persisted_count (tok : Except Err String)
    (fetch : Option String → Except Err Page) (fuel : Nat) (evs : List Ev)
    (n : Nat) (h : search tok fetch fuel = some (evs, Except.ok n)) :
    ∃ f, evs.getLast? = some (Ev.write f) ∧ n = f.length := by
  rcases search_shape tok fetch fuel evs (Except.ok n) h with
    ⟨e, _, _, hout⟩ | ⟨lout, _, hevs, hcase⟩
  · cases hout
  · rcases hcase with ⟨e, _, hout⟩ | ⟨_, hout⟩
    · cases hout
    · refine ⟨lout.acc, ?_, ?_⟩
      · rw [hevs]; exact List.getLast?_concat _
      · injection hout

/-- Witness for C1 at a concrete failing run: page 1 holds one truncated
and one plain item, the page-2 fetch raises a transport error, and the
two normalized items are persisted. -/
theorem search_persists_accumulator_once_witness :
    (∃ f, writesOf [Ev.write []] = [f] ∧
      [Ev.write []].getLast? = some (Ev.write f)) ∧
    search (Except.ok ("tk"))
        (failAfterFirst [⟨true, none, some ("A"), ("t1")⟩,
          ⟨false, some ("B"), none, ("t2")⟩] ("abc") Err.transport) 2 =
      some ([Ev.fetchCall none, Ev.fetchCall (some ("abc")),
        Ev.write [⟨['A'], ("t1")⟩, ⟨['B'], ("t2")⟩]],
        Except.error Err.transport) :=
  ⟨search_persists_accumulator_once.1 (Except.error Err.transport)
      (onePage ⟨[], none⟩) 0 [Ev.write []] (Except.error Err.transport) rfl,
    search_persists_accumulator_once.2
      [⟨true, none, some ("A"), ("t1")⟩, ⟨false, some ("B"), none, ("t2")⟩]
      ("abc") Err.transport [⟨['A'], ("t1")⟩, ⟨['B'], ("t2")⟩]
      (by decide) (by decide)⟩

/-- Witness for C2: a single page with no next cursor stops the loop
after its one fetch call. -/
theorem loop_stops_without_next_cursor_witness :
    searchLoop (onePage ⟨[], none⟩) 1 none [] = some ⟨[none], [], none⟩ :=
  loop_stops_without_next_cursor (onePage ⟨[], none⟩) 0 none [] []
    ⟨[], none⟩ rfl rfl rfl

/-- Witness for C3: a first page with next cursor abc makes the loop call
the fetcher again with exactly that cursor. -/
theorem loop_continues_with_next_cursor_witness :
    ∃ rest,
      (LoopOut.calls ⟨[none, some ("abc")], [], none⟩) =
        none :: some ("abc") :: rest :=
  loop_continues_with_next_cursor
    (twoPages ⟨[], some ("abc")⟩ ⟨[], none⟩) 0 none [] []
    ⟨[], some ("abc")⟩ ("abc") ⟨[none, some ("abc")], [], none⟩
    rfl rfl (by decide) rfl (by decide)

/-- Witness for C4: a run fetching one empty page returns 0, the length
of the persisted empty file. -/
theorem search_returns_persisted_count_witness :
    ∃ f, [Ev.fetchCall none, Ev.write []].getLast? = some (Ev.write f) ∧
      0 = f.length :=
  search_returns_persisted_count (Except.ok ("tk")) (onePage ⟨[], none⟩) 1
    [Ev.fetchCall none, Ev.write []] 0 rfl

/-- C5 counterexample: the item with text at-sign x normalizes to a text
with a leading space, because the source trims before it replaces; the
claim that the result has no leading or trailing whitespace fails. -/
theorem normalize_untrimmed_result :
    (normalizeItem ⟨false, some ("@x"), none, ("T")⟩).toOption =
      some ⟨[' ', 'x'], ("T")⟩ ∧
    jsTrim [' ', 'x'] ≠ [' ', 'x'] := by decide

/-- C5 (amended): for every raw item whose selected text is present, the
normalized tweet carries the item's created_at unmodified, its text
contains no newline, at-sign or hash character, and on CR-free trimmed
text it is exactly the trimmed source text with each such character
replaced by a single space; the trim happens before the replacement, so
spaces standing for removed boundary characters remain. -/
theorem normalize_spec (it : RawItem) (s : String) (tw : Tweet)
    (hsel : selectText it = some s)
    (hok : (normalizeItem it).toOption = some tw) :
    tw.created_at = it.created_at ∧
    tw.text.filter isForb = [] ∧
    ('\r' ∉ jsTrim s.toList → tw.text = (jsTrim s.toList).map substChar) := by
  simp only [normalizeItem, hsel, Except.toOption, Option.some.injEq] at hok
  subst hok
  refine ⟨rfl, ?_, ?_⟩
  · rw [List.filter_eq_nil_iff]
    intro c hc
    simp [mem_replaceChars_not_forb (jsTrim s.toList) c hc]
  · intro hcr
    exact replaceChars_eq_map (jsTrim s.toList) hcr

/-- Witness for C5 at the documented scenario text. -/
theorem normalize_spec_witness :
    Tweet.created_at ⟨("Hello  world  tag").toList, ("T")⟩ = ("T") ∧
    (Tweet.text ⟨("Hello  world  tag").toList, ("T")⟩).filter isForb = [] ∧
    Tweet.text ⟨("Hello  world  tag").toList, ("T")⟩ =
      (jsTrim ("Hello\n@world #tag").toList).map substChar :=
  ⟨(normalize_spec ⟨false, some ("Hello\n@world #tag"), none, ("T")⟩
      ("Hello\n@world #tag") ⟨("Hello  world  tag").toList, ("T")⟩
      (by decide) (by decide)).1,
    (normalize_spec ⟨false, some ("Hello\n@world #tag"), none, ("T")⟩
      ("Hello\n@world #tag") ⟨("Hello  world  tag").toList, ("T")⟩
      (by decide) (by decide)).2.1,
    (normalize_spec ⟨false, some ("Hello\n@world #tag"), none, ("T")⟩
      ("Hello\n@world #tag") ⟨("Hello  world  tag").toList, ("T")⟩
      (by decide) (by decide)).2.2 (by decide)⟩

/-- C6 counterexample: normalizing the text at-sign x gives a leading
space, and a second application removes it, so normalization is not
idempotent on its own output. -/
theorem normText_not_idempotent :
    normText (normText ("@x").toList) ≠ normText ("@x").toList := by
  decide

/-- C7: exactly one of the two text fields is read, selected solely by
the truncation flag: the unselected field can change or vanish without
changing the result, and a truncated item with a given full text
normalizes exactly as a plain item with that text. -/
theorem normalize_reads_one_field (t t2 e e2 : Option String) (c : String)
    (s : String) :
    normalizeItem ⟨true, t, e, c⟩ = normalizeItem ⟨true, t2, e, c⟩ ∧
    normalizeItem ⟨false, t, e, c⟩ = normalizeItem ⟨false, t, e2, c⟩ ∧
    normalizeItem ⟨true, t, some s, c⟩ = normalizeItem ⟨false, some s, e, c⟩ :=
  ⟨rfl, rfl, rfl⟩

/-- C8: reading the result file back after writing a sequence of
normalized tweets yields the same sequence, in content and order. -/
theorem readTweetFile_roundTrip (ts : List Tweet) :
    readTweetFile (stringifyTweets ts) = some ts := by
  show parseTweets (ts.map stringifyTweet) = some ts
  induction ts with
  | nil => rfl
  | cons t rest ih =>
    have hpt : parseTweet (stringifyTweet t) = some t := rfl
    show (match parseTweet (stringifyTweet t),
        parseTweets (rest.map stringifyTweet) with
      | some t2, some ts2 => some (t2 :: ts2)
      | _, _ => none) = some (t :: rest)
    rw [hpt, ih]

/-- C9 counterexample: on a 404 search response for the query XYZZY, the
propagated error message carries the status but the query is nowhere in
it. -/
theorem getTweetBatch_error_lacks_query :
    errMsgOf (getTweetBatch ("XYZZY") ⟨404, ⟨[], none⟩⟩).1 =
      some ("authorization request response status: 404") ∧
    ¬ ("XYZZY").toList <:+:
        ("authorization request response status: 404").toList := by
  decide

/-- C9 (amended): on every non-2xx search response, getTweetBatch fails
with an error whose message carries the response status code; the query
that triggered the request is carried only by the log line emitted before
the error is rethrown, not by the propagated error. -/
theorem getTweetBatch_http_error (query : String) (status : Nat)
    (page : Page) (h : responseOk status = false) :
    (getTweetBatch query ⟨status, page⟩).1 =
      Except.error ⟨gtbErrMessage status⟩ ∧
    (toString status).toList <:+: (gtbErrMessage status).toList ∧
    (getTweetBatch query ⟨status, page⟩).2 =
      [gtbLogLine query ⟨gtbErrMessage status⟩] ∧
    query.toList <:+: (gtbLogLine query ⟨gtbErrMessage status⟩).toList := by
  refine ⟨?_, ?_, ?_, ?_⟩
  · simp [getTweetBatch, h]
  · show (toString status).toList <:+:
      (("authorization request response status: ") ++ toString status).toList
    simp only [String.toList, String.data_append]
    exact ⟨("authorization request response status: ").data, [], by simp⟩
  · simp [getTweetBatch, h]
  · show query.toList <:+: (("getTweetBatch - query:") ++ query ++
      (" - Error: ") ++ gtbErrMessage status).toList
    simp only [String.toList, String.data_append]
    exact ⟨("getTweetBatch - query:").data,
      (" - Error: ").data ++ (gtbErrMessage status).data, by simp⟩

/-- Witness for C9 at status 404 and query q. -/
theorem getTweetBatch_http_error_witness :
    (getTweetBatch ("q") ⟨404, ⟨[], none⟩⟩).1 =
      Except.error ⟨gtbErrMessage 404⟩ ∧
    (toString 404).toList <:+: (gtbErrMessage 404).toList ∧
    (getTweetBatch ("q") ⟨404, ⟨[], none⟩⟩).2 =
      [gtbLogLine ("q") ⟨gtbErrMessage 404⟩] ∧
    ("q").toList <:+: (gtbLogLine ("q") ⟨gtbErrMessage 404⟩).toList :=
  getTweetBatch_http_error ("q") 404 ⟨[], none⟩ (by decide)

/-- C10: the request body includes the next field exactly when the
supplied cursor is truthy; an absent cursor and the empty-string cursor
both leave the field out, and a truthy cursor is passed through
unchanged. -/
theorem mkSearchBody_next_iff (q f : String) (m : Nat) (c : Option String) :
    ((mkSearchBody q f m c).next ≠ none ↔ truthy c = true) ∧
    (mkSearchBody q f m none).next = none ∧
    (mkSearchBody q f m (some (""))).next = none ∧
    (∀ s : String, truthy (some s) = true →
      (mkSearchBody q f m (some s)).next = some s) := by
  refine ⟨?_, rfl, rfl, ?_⟩
  · cases c with
    | none => simp [mkSearchBody, truthy]
    | some s =>
      by_cases hs : s = ""
      · subst hs
        simp [mkSearchBody, truthy]
      · simp [mkSearchBody, truthy, hs]
  · intro s hs
    simp [mkSearchBody, hs]

/-- Witness for C10 at the cursor abc. -/
theorem mkSearchBody_next_iff_witness :
    ((mkSearchBody ("q") ("d") 100 (some ("abc"))).next ≠ none ↔
      truthy (some ("abc")) = true) ∧
    (mkSearchBody ("q") ("d") 100 none).next = none ∧
    (mkSearchBody ("q") ("d") 100 (some (""))).next = none ∧
    (mkSearchBody ("q") ("d") 100 (some ("abc"))).next = some ("abc") :=
  ⟨(mkSearchBody_next_iff ("q") ("d") 100 (some ("abc"))).1,
    (mkSearchBody_next_iff ("q") ("d") 100 (some ("abc"))).2.1,
    (mkSearchBody_next_iff ("q") ("d") 100 (some ("abc"))).2.2.1,
    (mkSearchBody_next_iff ("q") ("d") 100 (some ("abc"))).2.2.2 ("abc")
      (by decide)⟩

end TwitterSearch
